import Mathlib

/-!
Verification of the large-file streaming patcher of the pcx-automation
repository: the section scanners and streaming patch of
src/utils/fast_pcx_editor.py and src/utils/large_file_handler.py, the backup
copy, and the structural validator, embedded shallowly over byte lists.

A file's content is a `List Nat` of byte values. The embedding assumes ASCII
content, for which CPython's text-mode character counts and `f.tell()` byte
offsets coincide; all concrete inputs below are ASCII. Filesystem effects are
a small state machine (`FS`, `FileOp`, `applyOp`): each constructor of
`FileOp` is one atomic filesystem step the Python code performs, and a whole
operation is a list of steps.

One genuine runtime behaviour is embedded explicitly: CPython disables
`tell()` while a text-mode file is being iterated with `for line in f`
(OSError "telling position disabled by next() call"). The loops of
FastPCXEditor.find_section_positions and find_last_rule_position end every
iteration with `position = f.tell()` inside such a `for`, so they raise on
any non-empty file; `find_last_rule_position` is therefore embedded as an
`Except`-valued function (`find_last_rule_position`), plus a second
definition (`find_last_rule_position_loop`) giving the value the loop
computes under working byte-offset tracking, i.e. the behaviour the code
evidently intended. `readline()`-based loops (LargePCXFileHandler) do not
disable `tell()` and are embedded as total functions.
-/

/-- Byte encoding of an ASCII string literal. -/
def strBytes (s : String) : List Nat := s.toList.map Char.toNat

/-- The blank-line separator written around every inserted block:
the two bytes of b-backslash-n-backslash-n twice, i.e. [10, 10]. -/
def sepBytes : List Nat := strBytes "\n\n"

/-- Split a byte list into the lines Python file iteration and `readline`
yield: each line keeps its trailing newline byte; a final line without a
newline is yielded as is. `acc` holds the bytes of the current line so far,
in reverse. -/
def lineSplitAux : List Nat → List Nat → List (List Nat)
  | [], [] => []
  | [], acc => [acc.reverse]
  | b :: bs, acc =>
    if b = 10 then (acc.reverse ++ [10]) :: lineSplitAux bs []
    else lineSplitAux bs (b :: acc)

/-- The lines of a file's content (Python line iteration). -/
def lineSplit (content : List Nat) : List (List Nat) := lineSplitAux content []

/-- Python str.strip() whitespace bytes (ASCII): space, tab, LF, VT, FF, CR. -/
def isSpaceByte (b : Nat) : Bool :=
  b = 32 || b = 9 || b = 10 || b = 11 || b = 12 || b = 13

/-- Python str.strip(): drop leading and trailing whitespace. -/
def stripBytes (l : List Nat) : List Nat :=
  ((l.dropWhile isSpaceByte).reverse.dropWhile isSpaceByte).reverse

/-- Chunked reading: the successive results of `f.read(c)` until exhausted.
The fuel argument only bounds the recursion; `chunksOf` passes enough. -/
def chunksOfGo (c : Nat) : Nat → List Nat → List (List Nat)
  | _, [] => []
  | 0, l => [l]
  | fuel + 1, l =>
    if l.length ≤ c then [l] else l.take c :: chunksOfGo c fuel (l.drop c)

/-- The chunks `read(c)` yields for content `l`. -/
def chunksOf (c : Nat) (l : List Nat) : List (List Nat) := chunksOfGo c l.length l

/-- Match start positions of re.finditer for a literal pattern: scan left to
right; after a match at i continue at i + |pattern| (matches do not overlap),
otherwise advance one position. Fuel ≥ |content| + 1 completes the scan for a
non-empty pattern. -/
def reFinditerGo (pat content : List Nat) : Nat → Nat → List Nat
  | 0, _ => []
  | fuel + 1, i =>
    if content.length < i + pat.length then []
    else if pat.isPrefixOf (content.drop i) then
      i :: reFinditerGo pat content fuel (i + pat.length)
    else reFinditerGo pat content fuel (i + 1)

/-- All re.finditer match starts of a literal pattern in `content`. -/
def reFinditerPositions (pat content : List Nat) : List Nat :=
  reFinditerGo pat content (content.length + 1) 0

/-- First loop of LargePCXFileHandler.find_insertion_point: read 1 MiB chunks;
for each finditer match in a chunk set
last_position = f.tell() - len(chunk) + match.start(), i.e. chunk base plus
match start. A pattern occurrence split across a chunk boundary is missed,
exactly as in the source. -/
def lastMatchGo (pat : List Nat) : List (List Nat) → Nat → Nat → Nat
  | [], _, lastPos => lastPos
  | ch :: chs, base, lastPos =>
    lastMatchGo pat chs (base + ch.length)
      ((reFinditerPositions pat ch).foldl (fun _ m => base + m) lastPos)

/-- last_position after the chunked finditer scan (0 when never matched). -/
def lastMatchPos (pat content : List Nat) : Nat :=
  lastMatchGo pat (chunksOf (1024 * 1024) content) 0 0

/-- Second loop of find_insertion_point: from a byte position, `readline()`
until EOF or a line whose stripped text starts with "ADD "; return
`f.tell()`, the position after the line just read (or the position reached,
at EOF). Note the very first line read is the one the match starts on. -/
def readToNextAdd : List (List Nat) → Nat → Nat
  | [], pos => pos
  | l :: ls, pos =>
    if (strBytes "ADD ").isPrefixOf (stripBytes l) then pos + l.length
    else readToNextAdd ls (pos + l.length)

/-- LargePCXFileHandler.find_insertion_point(after_section): locate the last
finditer match of "ADD " + after_section, then readline from that position
until a stripped line starts with "ADD " (which the match's own line does). -/
def find_insertion_point (content afterSection : List Nat) : Nat :=
  readToNextAdd
    (lineSplit (content.drop (lastMatchPos (strBytes "ADD " ++ afterSection) content)))
    (lastMatchPos (strBytes "ADD " ++ afterSection) content)

/-- FastPCXEditor.find_last_rule_position, embedded faithfully. The Python
loop is `for line in f` on a text-mode file whose body ends with
`position = f.tell()`; CPython raises OSError ("telling position disabled by
next() call") for tell() during such iteration, so every iteration that
reaches the end of the body raises. The early `return position` needs
in_rule_block set by an earlier iteration, which already raised, so the
function returns normally only on an empty file. `Except.error ()` stands
for the OSError. -/
def findLastRuleGo : List (List Nat) → Nat → Bool → Nat → Except Unit Nat
  | [], _, _, lastRulePos => Except.ok lastRulePos
  | l :: _, pos, inRuleBlock, _ =>
    if (strBytes "ADD RULE").isPrefixOf l then Except.error ()
    else if inRuleBlock && (strBytes "ADD ").isPrefixOf l
        && !((strBytes "ADD RULECOMPONENT").isPrefixOf l) then Except.ok pos
    else Except.error ()

/-- FastPCXEditor.find_last_rule_position as it executes under CPython. -/
def find_last_rule_position (content : List Nat) : Except Unit Nat :=
  findLastRuleGo (lineSplit content) 0 false 0

/-- The same loop under working byte-offset position tracking (what
`position = f.tell()` was evidently meant to compute): startswith "ADD RULE"
marks a rule start (note "ADD RULESET" also startswith "ADD RULE"); a later
line starting with "ADD " but not "ADD RULECOMPONENT", while inside a rule
block, returns that line's start; otherwise after the last line return
last_rule_pos (0 when no rule line was seen). -/
def findLastRuleLoopGo : List (List Nat) → Nat → Bool → Nat → Nat
  | [], _, _, lastRulePos => lastRulePos
  | l :: ls, pos, inRuleBlock, lastRulePos =>
    if (strBytes "ADD RULE").isPrefixOf l then
      findLastRuleLoopGo ls (pos + l.length) true pos
    else if inRuleBlock && (strBytes "ADD ").isPrefixOf l
        && !((strBytes "ADD RULECOMPONENT").isPrefixOf l) then pos
    else findLastRuleLoopGo ls (pos + l.length) inRuleBlock lastRulePos

/-- find_last_rule_position's loop value under working position tracking. -/
def find_last_rule_position_loop (content : List Nat) : Nat :=
  findLastRuleLoopGo (lineSplit content) 0 false 0

/-- Contents at the three paths a patch or backup operation touches: the
target file (`source`), the temp file `stem_temp.txt` (`temp`), and the
backup path (`backupFile`); `none` means no file exists at that path. -/
structure FS where
  source : Option (List Nat)
  temp : Option (List Nat)
  backupFile : Option (List Nat)

/-- One atomic filesystem step of the Python code. -/
inductive FileOp where
  | createTemp : FileOp
  | writeTemp (bs : List Nat) : FileOp
  | createBackup : FileOp
  | writeBackup (bs : List Nat) : FileOp
  | replaceSourceWithTemp : FileOp
  | renameSourceToBackup : FileOp
  | renameTempToSource : FileOp

/-- Effect of one step: createTemp/createBackup are open(..., 'wb') (truncate
or create empty); the writes append; replaceSourceWithTemp is
temp_file.replace(file_path), one atomic step; renameSourceToBackup is
file_path.rename(backup); renameTempToSource is temp_file.rename(file_path). -/
def applyOp (s : FS) : FileOp → FS
  | FileOp.createTemp => { s with temp := some [] }
  | FileOp.writeTemp bs => { s with temp := some ((s.temp.getD []) ++ bs) }
  | FileOp.createBackup => { s with backupFile := some [] }
  | FileOp.writeBackup bs => { s with backupFile := some ((s.backupFile.getD []) ++ bs) }
  | FileOp.replaceSourceWithTemp => { s with source := s.temp, temp := none }
  | FileOp.renameSourceToBackup => { s with backupFile := s.source, source := none }
  | FileOp.renameTempToSource => { s with source := s.temp, temp := none }

/-- Run a list of steps. -/
def runOps (s : FS) (ops : List FileOp) : FS := ops.foldl applyOp s

/-- The filesystem before an operation on a file with content F. -/
def initFS (content : List Nat) : FS := ⟨some content, none, none⟩

/-- P holds at the initial state and after every step of the list. -/
def alongOps (P : FS → Prop) : FS → List FileOp → Prop
  | s, [] => P s
  | s, op :: ops => P s ∧ alongOps P (applyOp s op) ops

/-- Whether a step can change what is at the target path. -/
def touchesSource : FileOp → Bool
  | FileOp.replaceSourceWithTemp => true
  | FileOp.renameSourceToBackup => true
  | FileOp.renameTempToSource => true
  | _ => false

/-- The successive temp-file writes both patchers perform for source F,
offset o, block B: the first o bytes in ONE write (dst.write(src.read(o)),
an unchunked read of the whole prefix), the separator, the UTF-8 bytes of
the block, the separator, then the rest of the source in 10 MiB chunks. -/
def patchWriteData (F : List Nat) (o : Nat) (B : List Nat) : List (List Nat) :=
  [F.take o, sepBytes, B, sepBytes] ++ chunksOf (10 * 1024 * 1024) (F.drop o)

/-- LargePCXFileHandler.append_content with at_position = o (lines 94-119):
write the temp file, then one atomic temp_file.replace(file_path). -/
def append_content_ops (F : List Nat) (o : Nat) (B : List Nat) : List FileOp :=
  (FileOp.createTemp :: (patchWriteData F o B).map FileOp.writeTemp)
    ++ [FileOp.replaceSourceWithTemp]

/-- FastPCXEditor.insert_rules_fast's write-and-publish phase (lines 59-88)
at insertion offset o: the same temp writes, then file_path.rename(backup)
followed by temp_file.rename(file_path) — two separate renames. -/
def insert_rules_fast_ops (F : List Nat) (o : Nat) (B : List Nat) : List FileOp :=
  (FileOp.createTemp :: (patchWriteData F o B).map FileOp.writeTemp)
    ++ [FileOp.renameSourceToBackup, FileOp.renameTempToSource]

/-- The whole of FastPCXEditor.insert_rules_fast: compute the insertion
offset with find_last_rule_position (which raises on any non-empty file),
then run the write-and-publish phase at that offset. -/
def insert_rules_fast_run (F B : List Nat) : Except Unit FS :=
  match find_last_rule_position F with
  | Except.error e => Except.error e
  | Except.ok o => Except.ok (runOps (initFS F) (insert_rules_fast_ops F o B))

/-- LargePCXFileHandler.backup_file (lines 56-80): open the backup path for
binary write and copy the source in 10 MiB chunks; the source is only read. -/
def backup_file_ops (F : List Nat) : List FileOp :=
  FileOp.createBackup :: (chunksOf (10 * 1024 * 1024) F).map FileOp.writeBackup

/-- The splice formula of the specification (sections 4.3 and 8):
source[0:offset] + sep + block + sep + source[offset:]. Stated from the
spec's words, to be compared with what the embedded code produces. -/
def spliceSpec (F : List Nat) (o : Nat) (B : List Nat) : List Nat :=
  F.take o ++ sepBytes ++ B ++ sepBytes ++ F.drop o

/-- Sizes of the successive read(c) results when n bytes remain: each read
returns min c n bytes until nothing remains. Fuel bounds the recursion. -/
def chunkSizesGo (c : Nat) : Nat → Nat → List Nat
  | 0, _ => []
  | fuel + 1, n => if n = 0 then [] else min c n :: chunkSizesGo c fuel (n - c)

/-- Read sizes of a chunked copy of n bytes with chunk size c. -/
def chunkSizes (n c : Nat) : List Nat := chunkSizesGo c n n

/-- Read sizes of find_insertion_point's scan of an n-byte file (1 MiB). -/
def scanReadSizes (n : Nat) : List Nat := chunkSizes n (1024 * 1024)

/-- Read sizes of backup_file's copy of an n-byte file (10 MiB chunks). -/
def backupReadSizes (n : Nat) : List Nat := chunkSizes n (10 * 1024 * 1024)

/-- Read sizes of the patch copy of an n-byte file at offset o: ONE read of
the whole prefix (src.read(at_position) / source.read(insert_pos)), then the
remainder in 10 MiB chunks. -/
def patchReadSizes (n o : Nat) : List Nat :=
  min o n :: chunkSizes (n - o) (10 * 1024 * 1024)

/-- The issues validate_structure can report; the human-readable message
text is irrelevant to the claims and elided. -/
inductive PCXIssue where
  | fileTooLarge : PCXIssue
  | missingSection (sec : List Nat) : PCXIssue
deriving DecidableEq

/-- The required_sections list of validate_structure. -/
def requiredSections : List (List Nat) :=
  [strBytes "ADD DESTINATION", strBytes "ADD RULE", strBytes "ADD RULESET"]

/-- Python's substring test `needle in hay`. -/
def substrIn (needle : List Nat) : List Nat → Bool
  | [] => needle.isEmpty
  | b :: bs => needle.isPrefixOf (b :: bs) || substrIn needle bs

/-- The issues list validate_structure builds: the file-size issue first
(file_size_mb > 100 is exactly sizeBytes > 100 * 2^20: float division by the
power of two 2^20 is exact for realistic sizes), then one missing-section
issue per required section not found in the first 10000 lines. -/
def validateIssues (sizeBytes : Nat) (lines : List (List Nat)) : List PCXIssue :=
  (if 100 * 1024 * 1024 < sizeBytes then [PCXIssue.fileTooLarge] else [])
    ++ (requiredSections.filter fun sec =>
          !((lines.take 10000).any fun l => substrIn sec l)).map PCXIssue.missingSection

/-- LargePCXFileHandler.validate_structure (lines 123-160): returns
(len(issues) == 0, issues). -/
def validate_structure (sizeBytes : Nat) (lines : List (List Nat)) :
    Bool × List PCXIssue :=
  ((validateIssues sizeBytes lines).length == 0, validateIssues sizeBytes lines)

/-- Path.stem of a file name: the name without its last dot-extension (names
here are plain `name.ext` forms, the shapes the tool handles). -/
def pathStem (name : List Char) : List Char :=
  match name.reverse.findIdx? (fun c => c == '.') with
  | none => name
  | some i => name.take (name.length - i - 1)

/-- The backup file name both code sites build
(large_file_handler.py line 59-62, fast_pcx_editor.py line 80-86):
stem + "_backup_" + timestamp + ".txt" — the suffix is the literal ".txt". -/
def mkBackupName (origName ts : List Char) : List Char :=
  pathStem origName ++ "_backup_".toList ++ ts ++ ".txt".toList

theorem chunksOfGo_flatten (c : Nat) :
    ∀ (fuel : Nat) (l : List Nat), (chunksOfGo c fuel l).flatten = l := by
  intro fuel
  induction fuel with
  | zero =>
    intro l
    cases l with
    | nil => rfl
    | cons a as => simp [chunksOfGo]
  | succ fuel ih =>
    intro l
    cases l with
    | nil => rfl
    | cons a as =>
      simp only [chunksOfGo]
      split
      · simp
      · simp [ih, List.take_append_drop]

theorem chunksOf_flatten (c : Nat) (l : List Nat) : (chunksOf c l).flatten = l :=
  chunksOfGo_flatten c l.length l

theorem patchWriteData_flatten (F : List Nat) (o : Nat) (B : List Nat) :
    (patchWriteData F o B).flatten = spliceSpec F o B := by
  simp [patchWriteData, spliceSpec, chunksOf_flatten]

theorem runOps_append (s : FS) (l1 l2 : List FileOp) :
    runOps s (l1 ++ l2) = runOps (runOps s l1) l2 :=
  List.foldl_append applyOp s l1 l2

theorem runOps_writeTemps (src bk : Option (List Nat)) :
    ∀ (ws : List (List Nat)) (t : List Nat),
      runOps ⟨src, some t, bk⟩ (ws.map FileOp.writeTemp)
        = ⟨src, some (t ++ ws.flatten), bk⟩ := by
  intro ws
  induction ws with
  | nil => intro t; simp [runOps]
  | cons w ws ih =>
    intro t
    have h1 : runOps ⟨src, some t, bk⟩ ((w :: ws).map FileOp.writeTemp)
        = runOps ⟨src, some (t ++ w), bk⟩ (ws.map FileOp.writeTemp) := rfl
    rw [h1, ih]
    simp

theorem runOps_createThenWrites (F : List Nat) (ws : List (List Nat)) :
    runOps (initFS F) (FileOp.createTemp :: ws.map FileOp.writeTemp)
      = ⟨some F, some ws.flatten, none⟩ := by
  have h1 : runOps (initFS F) (FileOp.createTemp :: ws.map FileOp.writeTemp)
      = runOps ⟨some F, some [], none⟩ (ws.map FileOp.writeTemp) := rfl
  rw [h1, runOps_writeTemps]
  simp

theorem runOps_writeBackups (src tmp : Option (List Nat)) :
    ∀ (ws : List (List Nat)) (t : List Nat),
      runOps ⟨src, tmp, some t⟩ (ws.map FileOp.writeBackup)
        = ⟨src, tmp, some (t ++ ws.flatten)⟩ := by
  intro ws
  induction ws with
  | nil => intro t; simp [runOps]
  | cons w ws ih =>
    intro t
    have h1 : runOps ⟨src, tmp, some t⟩ ((w :: ws).map FileOp.writeBackup)
        = runOps ⟨src, tmp, some (t ++ w)⟩ (ws.map FileOp.writeBackup) := rfl
    rw [h1, ih]
    simp

theorem applyOp_source (s : FS) (op : FileOp) (h : touchesSource op = false) :
    (applyOp s op).source = s.source := by
  cases op <;> simp_all [applyOp, touchesSource]

theorem runOps_source : ∀ (ops : List FileOp) (s : FS),
    (∀ op ∈ ops, touchesSource op = false) → (runOps s ops).source = s.source := by
  intro ops
  induction ops with
  | nil => intro s _; rfl
  | cons op ops ih =>
    intro s h
    have h2 : runOps s (op :: ops) = runOps (applyOp s op) ops := rfl
    rw [h2, ih (applyOp s op) (fun o ho => h o (List.mem_cons_of_mem _ ho)),
      applyOp_source s op (h op (List.mem_cons_self _ _))]

theorem alongOps_append (P : FS → Prop) :
    ∀ (ops tl : List FileOp) (s : FS),
      (∀ op ∈ ops, touchesSource op = false) →
      (∀ s2 : FS, s2.source = s.source → P s2) →
      alongOps P (runOps s ops) tl →
      alongOps P s (ops ++ tl) := by
  intro ops
  induction ops with
  | nil => intro tl s _ _ ht; exact ht
  | cons op ops ih =>
    intro tl s h hP ht
    show P s ∧ alongOps P (applyOp s op) (ops ++ tl)
    refine ⟨hP s rfl, ?_⟩
    exact ih tl (applyOp s op)
      (fun o ho => h o (List.mem_cons_of_mem _ ho))
      (fun s2 hs2 => hP s2 (hs2.trans (applyOp_source s op (h op (List.mem_cons_self _ _)))))
      ht

theorem alongOps_of_preserve (P : FS → Prop) :
    ∀ (ops : List FileOp) (s : FS),
      (∀ op ∈ ops, touchesSource op = false) →
      (∀ s2 : FS, s2.source = s.source → P s2) →
      alongOps P s ops := by
  intro ops
  induction ops with
  | nil => intro s _ hP; exact hP s rfl
  | cons op ops ih =>
    intro s h hP
    exact ⟨hP s rfl, ih (applyOp s op)
      (fun o ho => h o (List.mem_cons_of_mem _ ho))
      (fun s2 hs2 => hP s2 (hs2.trans (applyOp_source s op (h op (List.mem_cons_self _ _)))))⟩

theorem tempPhase_preserve (ws : List (List Nat)) :
    ∀ op ∈ FileOp.createTemp :: ws.map FileOp.writeTemp, touchesSource op = false := by
  intro op hop
  rcases List.mem_cons.mp hop with h | h
  · subst h; rfl
  · obtain ⟨w, -, rfl⟩ := List.mem_map.mp h
    rfl

theorem backupPhase_preserve (ws : List (List Nat)) :
    ∀ op ∈ FileOp.createBackup :: ws.map FileOp.writeBackup, touchesSource op = false := by
  intro op hop
  rcases List.mem_cons.mp hop with h | h
  · subst h; rfl
  · obtain ⟨w, -, rfl⟩ := List.mem_map.mp h
    rfl

theorem chunkSizesGo_le (c : Nat) :
    ∀ (fuel n s : Nat), s ∈ chunkSizesGo c fuel n → s ≤ c := by
  intro fuel
  induction fuel with
  | zero => intro n s h; simp [chunkSizesGo] at h
  | succ fuel ih =>
    intro n s h
    by_cases hn : n = 0
    · simp [chunkSizesGo, hn] at h
    · simp only [chunkSizesGo, if_neg hn] at h
      rcases List.mem_cons.mp h with h2 | h2
      · subst h2; exact Nat.min_le_left c n
      · exact ih (n - c) s h2

theorem dropLast_append_pair {α : Type} (l : List α) (a b : α) :
    (l ++ [a, b]).dropLast = l ++ [a] := by
  have h : l ++ [a, b] = (l ++ [a]) ++ [b] := by simp
  rw [h, List.dropLast_concat]

/-- C1: the splice law. For every source F, offset o and block B,
append_content with at_position = o leaves exactly
source[0:o] + sep + B + sep + source[o:] at the target path, byte for byte
(take/drop clamp past the end exactly as read(o) does); insert_rules_fast's
write-and-publish phase produces the same bytes at whatever offset it is
given; but insert_rules_fast's own offset computation raises OSError on any
non-empty file (tell() during text-file iteration), so the complete
operation yields no patched file there, shown at a one-line concrete file. -/
theorem c1_splice_law :
    (∀ (F : List Nat) (o : Nat) (B : List Nat),
      (runOps (initFS F) (append_content_ops F o B)).source = some (spliceSpec F o B))
    ∧ (∀ (F : List Nat) (o : Nat) (B : List Nat),
      (runOps (initFS F) (insert_rules_fast_ops F o B)).source = some (spliceSpec F o B))
    ∧ insert_rules_fast_run (strBytes "ADD RULE\n") (strBytes "ADD RULE\n    X = 2")
        = Except.error () := by
  refine ⟨?_, ?_, rfl⟩
  · intro F o B
    unfold append_content_ops
    rw [runOps_append, runOps_createThenWrites]
    show some (patchWriteData F o B).flatten = some (spliceSpec F o B)
    rw [patchWriteData_flatten]
  · intro F o B
    unfold insert_rules_fast_ops
    rw [runOps_append, runOps_createThenWrites]
    show some (patchWriteData F o B).flatten = some (spliceSpec F o B)
    rw [patchWriteData_flatten]

/-- C2 (amended): append_content publishes with a single atomic replace, so
the target path always holds the complete pre-patch or the complete patched
content; insert_rules_fast instead renames the original to the backup path
and then renames the temp file into place, so between its two renames the
target path holds no file at all (state value none); outside that window the
target holds only complete pre- or post-patch content, the final state is
the patched content, and the original survives at the backup path. -/
theorem c2_publish_states (F : List Nat) (o : Nat) (B : List Nat) :
    alongOps (fun s => s.source = some F ∨ s.source = some (spliceSpec F o B))
      (initFS F) (append_content_ops F o B)
    ∧ alongOps
        (fun s => s.source = some F ∨ s.source = some (spliceSpec F o B) ∨ s.source = none)
        (initFS F) (insert_rules_fast_ops F o B)
    ∧ (runOps (initFS F) ((insert_rules_fast_ops F o B).dropLast)).source = none
    ∧ (runOps (initFS F) (insert_rules_fast_ops F o B)).source = some (spliceSpec F o B)
    ∧ (runOps (initFS F) (insert_rules_fast_ops F o B)).backupFile = some F := by
  refine ⟨?_, ?_, ?_, ?_, ?_⟩
  · unfold append_content_ops
    refine alongOps_append _ _ _ _ (tempPhase_preserve _) (fun s2 h => Or.inl h) ?_
    rw [runOps_createThenWrites]
    exact ⟨Or.inl rfl, Or.inr (congrArg some (patchWriteData_flatten F o B))⟩
  · unfold insert_rules_fast_ops
    refine alongOps_append _ _ _ _ (tempPhase_preserve _) (fun s2 h => Or.inl h) ?_
    rw [runOps_createThenWrites]
    exact ⟨Or.inl rfl, Or.inr (Or.inr rfl),
      Or.inr (Or.inl (congrArg some (patchWriteData_flatten F o B)))⟩
  · unfold insert_rules_fast_ops
    rw [dropLast_append_pair, runOps_append, runOps_createThenWrites]
    rfl
  · unfold insert_rules_fast_ops
    rw [runOps_append, runOps_createThenWrites]
    show some (patchWriteData F o B).flatten = some (spliceSpec F o B)
    rw [patchWriteData_flatten]
  · unfold insert_rules_fast_ops
    rw [runOps_append, runOps_createThenWrites]
    rfl

/-- C2 counterexample: on the empty source file (the one case where
insert_rules_fast's offset scan returns instead of raising, so the renames
actually run), the state reached after every step but the last has no file
at the target path, and the claimed invariant — the target always holds the
complete pre-patch or the complete patched content — is false of the trace. -/
theorem c2_window_counterexample :
    (runOps (initFS ([] : List Nat))
        ((insert_rules_fast_ops [] 0 (strBytes "ADD RULE\n    X = 1")).dropLast)).source = none
    ∧ ¬ alongOps
        (fun s => s.source = some ([] : List Nat)
          ∨ s.source = some (spliceSpec [] 0 (strBytes "ADD RULE\n    X = 1")))
        (initFS []) (insert_rules_fast_ops [] 0 (strBytes "ADD RULE\n    X = 1")) := by
  refine ⟨rfl, ?_⟩
  intro h
  exact absurd h.2.2.2.2.2.2.1 (by decide)

/-- C3: on a file where ADD RULE occupies two separate regions
("ADD RULE/    X = 1/ADD DESTINATION/ADD RULE/    Y = 2/ADD DESTINATION/"),
the end of the LAST region is byte 54 (the final ADD DESTINATION line), but
find_insertion_point returns 44 (the end of the last region's marker line,
inside that block), find_last_rule_position raises, and the loop it intended
computes 19 — the end of the FIRST region. Neither scanner returns 54. -/
theorem c3_multi_region_eval :
    find_insertion_point
        (strBytes "ADD RULE\n    X = 1\nADD DESTINATION\nADD RULE\n    Y = 2\nADD DESTINATION\n")
        (strBytes "RULE") = 44
    ∧ find_last_rule_position
        (strBytes "ADD RULE\n    X = 1\nADD DESTINATION\nADD RULE\n    Y = 2\nADD DESTINATION\n")
        = Except.error ()
    ∧ find_last_rule_position_loop
        (strBytes "ADD RULE\n    X = 1\nADD DESTINATION\nADD RULE\n    Y = 2\nADD DESTINATION\n")
        = 19
    ∧ ¬ ((44 : Nat) = 54 ∨ (19 : Nat) = 54) := by
  refine ⟨by decide, rfl, by decide, by decide⟩

/-- C4: on the 3-line Scenario-A file "ADD RULE/    X = 1/ADD DESTINATION/",
the byte position of ADD DESTINATION is 19; find_insertion_point returns 9,
the start of the indented field line inside the block (its readline loop
stops on the match's own line); find_last_rule_position raises OSError; the
loop it intended computes 19. -/
theorem c4_scenario_a_eval :
    find_insertion_point (strBytes "ADD RULE\n    X = 1\nADD DESTINATION\n")
        (strBytes "RULE") = 9
    ∧ find_last_rule_position (strBytes "ADD RULE\n    X = 1\nADD DESTINATION\n")
        = Except.error ()
    ∧ find_last_rule_position_loop (strBytes "ADD RULE\n    X = 1\nADD DESTINATION\n") = 19
    ∧ (9 : Nat) ≠ 19 := by
  refine ⟨by decide, rfl, by decide, by decide⟩

/-- C5: the scan loop reads only 1 MiB chunks and the backup loop only
10 MiB chunks, but the patch copy's first read is the entire prefix up to
the insertion offset in one call (here 50 MiB of a 100 MiB file), and no
constant bounds the patch operation's read sizes over all files/offsets. -/
theorem c5_read_size_bounds :
    (patchReadSizes (100 * 1024 * 1024) (50 * 1024 * 1024)).head?
        = some (50 * 1024 * 1024)
    ∧ (¬ ∃ C : Nat, ∀ n o s : Nat, o ≤ n → s ∈ patchReadSizes n o → s ≤ C)
    ∧ (∀ n s : Nat, s ∈ scanReadSizes n → s ≤ 1024 * 1024)
    ∧ (∀ n s : Nat, s ∈ backupReadSizes n → s ≤ 10 * 1024 * 1024) := by
  refine ⟨rfl, ?_, ?_, ?_⟩
  · rintro ⟨C, hC⟩
    have h1 : (C + 1) ∈ patchReadSizes (C + 1) (C + 1) := by
      show C + 1 ∈ min (C + 1) (C + 1) :: chunkSizes ((C + 1) - (C + 1)) (10 * 1024 * 1024)
      rw [Nat.min_self]
      exact List.mem_cons_self _ _
    exact absurd (hC (C + 1) (C + 1) (C + 1) (Nat.le_refl _) h1) (by omega)
  · intro n s h
    exact chunkSizesGo_le _ _ _ _ h
  · intro n s h
    exact chunkSizesGo_le _ _ _ _ h

/-- C6: with no occurrence of the target type, find_last_rule_position
raises OSError on any non-empty file (its intended loop would return 0), and
find_insertion_point returns end-of-file (12 on "hello/world/") or the end
of the first line whose stripped text starts with "ADD " (16 on
"ADD DESTINATION/foo/") — not 0. -/
theorem c6_no_occurrence_eval :
    find_last_rule_position (strBytes "hello\nworld\n") = Except.error ()
    ∧ find_last_rule_position_loop (strBytes "hello\nworld\n") = 0
    ∧ find_insertion_point (strBytes "hello\nworld\n") (strBytes "RULESET") = 12
    ∧ find_insertion_point (strBytes "ADD DESTINATION\nfoo\n") (strBytes "RULESET") = 16
    ∧ (12 : Nat) ≠ 0 ∧ (16 : Nat) ≠ 0 := by
  refine ⟨rfl, by decide, by decide, by decide, by decide, by decide⟩

/-- C7: if the operation fails at any point while the temp file is being
created or written — after any prefix of the first 1 + number-of-writes
steps — the target file still holds exactly the original bytes: every
replace/rename step comes after all temp writes in both patchers. -/
theorem c7_failure_preserves_source (F : List Nat) (o k : Nat) (B : List Nat)
    (hk : k ≤ (patchWriteData F o B).length + 1) :
    (runOps (initFS F) ((append_content_ops F o B).take k)).source = some F
    ∧ (runOps (initFS F) ((insert_rules_fast_ops F o B).take k)).source = some F := by
  have hlen : k ≤ (FileOp.createTemp :: (patchWriteData F o B).map FileOp.writeTemp).length := by
    simp only [List.length_cons, List.length_map]
    exact hk
  constructor
  · unfold append_content_ops
    rw [List.take_append_of_le_length hlen]
    exact runOps_source _ _ (fun op ho => tempPhase_preserve _ op (List.mem_of_mem_take ho))
  · unfold insert_rules_fast_ops
    rw [List.take_append_of_le_length hlen]
    exact runOps_source _ _ (fun op ho => tempPhase_preserve _ op (List.mem_of_mem_take ho))

/-- C7 witness: a concrete failure after 3 of the 6 temp-phase steps of
patching "ADD RULESET/" at offset 5 leaves the original at the target. -/
theorem c7_failure_witness :
    (runOps (initFS (strBytes "ADD RULESET\n"))
        ((append_content_ops (strBytes "ADD RULESET\n") 5 (strBytes "NEW")).take 3)).source
      = some (strBytes "ADD RULESET\n")
    ∧ (runOps (initFS (strBytes "ADD RULESET\n"))
        ((insert_rules_fast_ops (strBytes "ADD RULESET\n") 5 (strBytes "NEW")).take 3)).source
      = some (strBytes "ADD RULESET\n") :=
  c7_failure_preserves_source (strBytes "ADD RULESET\n") 5 3 (strBytes "NEW") (by decide)

/-- C8: backup_file writes a new file at the backup path whose bytes equal
the source exactly (the 10 MiB chunks concatenate back to the source), and
the target file's content is unchanged at every step of the copy. -/
theorem c8_backup_copy_frame (F : List Nat) :
    (runOps (initFS F) (backup_file_ops F)).backupFile = some F
    ∧ (runOps (initFS F) (backup_file_ops F)).source = some F
    ∧ alongOps (fun s => s.source = some F) (initFS F) (backup_file_ops F) := by
  have h1 : runOps (initFS F) (backup_file_ops F) = ⟨some F, none, some F⟩ := by
    unfold backup_file_ops
    have h2 : runOps (initFS F)
        (FileOp.createBackup :: (chunksOf (10 * 1024 * 1024) F).map FileOp.writeBackup)
        = runOps ⟨some F, none, some []⟩
            ((chunksOf (10 * 1024 * 1024) F).map FileOp.writeBackup) := rfl
    rw [h2, runOps_writeBackups]
    simp [chunksOf_flatten]
  refine ⟨by rw [h1], by rw [h1], ?_⟩
  exact alongOps_of_preserve _ _ _ (backupPhase_preserve _) (fun s2 h => h)

/-- C9 counterexample: for the original name export.pcx the backup name is
not stem + "_backup_" + timestamp + ".pcx" — the original suffix is not
preserved. -/
theorem c9_suffix_counterexample :
    mkBackupName "export.pcx".toList "20240101_000000".toList
      ≠ pathStem "export.pcx".toList ++ "_backup_".toList
        ++ "20240101_000000".toList ++ ".pcx".toList := by decide

/-- C9 (amended): the backup file name is
stem + "_backup_" + timestamp + ".txt" — it starts with the original stem
followed by "_backup_", and its suffix is the hardcoded literal ".txt"
whatever the original file's suffix was. -/
theorem c9_backup_name_shape (origName ts : List Char) :
    ".txt".toList <:+ mkBackupName origName ts
    ∧ pathStem origName ++ "_backup_".toList <+: mkBackupName origName ts := by
  constructor
  · exact ⟨pathStem origName ++ "_backup_".toList ++ ts, by simp [mkBackupName]⟩
  · exact ⟨ts ++ ".txt".toList, by simp [mkBackupName]⟩

/-- C10: when the file exceeds 100 MiB the size issue alone makes the first
component of validate_structure false, whatever the lines contain (even with
every required section present); and in general the flag is true exactly
when the issues list is empty. -/
theorem c10_validate_size_flag (sizeBytes : Nat) (lines : List (List Nat))
    (h : 100 * 1024 * 1024 < sizeBytes) :
    (validate_structure sizeBytes lines).1 = false
    ∧ ∀ (sz : Nat) (ls : List (List Nat)),
        ((validate_structure sz ls).1 = true ↔ (validate_structure sz ls).2 = []) := by
  constructor
  · have hne : validateIssues sizeBytes lines ≠ [] := by
      simp [validateIssues, if_pos h]
    simp only [validate_structure, beq_eq_false_iff_ne, Ne, List.length_eq_zero]
    exact hne
  · intro sz ls
    simp only [validate_structure]
    simp [List.length_eq_zero]

/-- C10 witness: a file one byte over 100 MiB whose first lines contain all
three required sections is still flagged invalid. -/
theorem c10_validate_witness :
    (validate_structure (100 * 1024 * 1024 + 1)
        [strBytes "ADD DESTINATION", strBytes "ADD RULE", strBytes "ADD RULESET"]).1
      = false :=
  (c10_validate_size_flag (100 * 1024 * 1024 + 1)
      [strBytes "ADD DESTINATION", strBytes "ADD RULE", strBytes "ADD RULESET"]
      (by norm_num)).1
